import Mathlib

/-!
Verification of the flagsmith task-processor core (task registry, argument
codec, task-handler decorator, recurring-task registrar) against its
specification.  The repository ships only the test suite and the call sites
of this subsystem; the subsystem itself (module task_processor: decorators,
task_registry, models, task_run_method, exceptions) is therefore modelled
here from the specification, with the unit tests in
api/tests/unit/task_processor/test_unit_task_processor_decorators.py
pinning the observable behaviour wherever the specification leaves a choice
or conflicts with itself.
-/

namespace TaskProcessor

/-! ## Python values

Arguments passed to a decorated task are Python values.  The codec accepts
the JSON-encodable subset (None, bool, int, str, list, dict) and rejects
arbitrary object instances, which are represented by the constructor objV
carrying only the class name.  Nested lists and dicts are given by mutually
inductive list types so that structural recursion and induction stay
elementary. -/

mutual

inductive PyVal where
  | noneV : PyVal
  | boolV (b : Bool) : PyVal
  | intV (n : Int) : PyVal
  | strV (s : String) : PyVal
  | listV (xs : PyList) : PyVal
  | dictV (kvs : PyDict) : PyVal
  | objV (cls : String) : PyVal

inductive PyList where
  | nil : PyList
  | cons (hd : PyVal) (tl : PyList) : PyList

inductive PyDict where
  | nil : PyDict
  | cons (key : String) (val : PyVal) (tl : PyDict) : PyDict

end

/-! JSON values, the transport encoding produced by the argument codec. -/

mutual

inductive JsonVal where
  | null : JsonVal
  | bool (b : Bool) : JsonVal
  | int (n : Int) : JsonVal
  | str (s : String) : JsonVal
  | arr (xs : JsonArr) : JsonVal
  | obj (kvs : JsonObj) : JsonVal

inductive JsonArr where
  | nil : JsonArr
  | cons (hd : JsonVal) (tl : JsonArr) : JsonArr

inductive JsonObj where
  | nil : JsonObj
  | cons (key : String) (val : JsonVal) (tl : JsonObj) : JsonObj

end

mutual

/-- Modelled from the spec: the validation half of the Argument Codec of
task_processor (the module is absent from the sources; only its tests are
shipped).  A Python value is encodable exactly when it lies in the closed
JSON fragment; an arbitrary object instance has no encoding. -/
def encodeVal : PyVal → Option JsonVal
  | PyVal.noneV => some JsonVal.null
  | PyVal.boolV b => some (JsonVal.bool b)
  | PyVal.intV n => some (JsonVal.int n)
  | PyVal.strV s => some (JsonVal.str s)
  | PyVal.listV xs => (encodeList xs).map JsonVal.arr
  | PyVal.dictV kvs => (encodeDict kvs).map JsonVal.obj
  | PyVal.objV _ => Option.none

def encodeList : PyList → Option JsonArr
  | PyList.nil => some JsonArr.nil
  | PyList.cons x xs =>
    match encodeVal x, encodeList xs with
    | some j, some js => some (JsonArr.cons j js)
    | _, _ => Option.none

def encodeDict : PyDict → Option JsonObj
  | PyDict.nil => some JsonObj.nil
  | PyDict.cons k v tl =>
    match encodeVal v, encodeDict tl with
    | some j, some js => some (JsonObj.cons k j js)
    | _, _ => Option.none

end

mutual

/-- Modelled from the spec: the decoding half of the Argument Codec, used by
the worker to reconstruct the original arguments from the transport
encoding. -/
def decodeVal : JsonVal → PyVal
  | JsonVal.null => PyVal.noneV
  | JsonVal.bool b => PyVal.boolV b
  | JsonVal.int n => PyVal.intV n
  | JsonVal.str s => PyVal.strV s
  | JsonVal.arr xs => PyVal.listV (decodeArr xs)
  | JsonVal.obj kvs => PyVal.dictV (decodeObj kvs)

def decodeArr : JsonArr → PyList
  | JsonArr.nil => PyList.nil
  | JsonArr.cons x xs => PyList.cons (decodeVal x) (decodeArr xs)

def decodeObj : JsonObj → PyDict
  | JsonObj.nil => PyDict.nil
  | JsonObj.cons k v tl => PyDict.cons k (decodeVal v) (decodeObj tl)

end

/-- A value is serializable when the codec has an encoding for it. -/
def serializable (v : PyVal) : Bool := (encodeVal v).isSome

abbrev Kwargs := List (String × PyVal)

/-- The underlying Python callable of a task: positional and keyword
arguments to a result value. -/
abbrev PyFn := List PyVal → Kwargs → PyVal

/-- Encoding of a tuple of positional arguments. -/
def encodeArgs : List PyVal → Option (List JsonVal)
  | [] => some []
  | a :: rest =>
    match encodeVal a, encodeArgs rest with
    | some j, some js => some (j :: js)
    | _, _ => Option.none

/-- Encoding of a keyword-argument mapping. -/
def encodeKwargs : Kwargs → Option (List (String × JsonVal))
  | [] => some []
  | (k, v) :: rest =>
    match encodeVal v, encodeKwargs rest with
    | some j, some js => some ((k, j) :: js)
    | _, _ => Option.none

/-- The transport-safe encoding of one argument set. -/
structure EncodedPayload where
  args : List JsonVal
  kwargs : List (String × JsonVal)

/-- Modelled from the spec: validate_and_encode of the Argument Codec.
Succeeds exactly when every positional argument and every keyword value is
serializable; a failure is surfaced as InvalidArgumentsError by the
callers. -/
def validate_and_encode (args : List PyVal) (kwargs : Kwargs) : Option EncodedPayload :=
  match encodeArgs args, encodeKwargs kwargs with
  | some ea, some ek => some ⟨ea, ek⟩
  | _, _ => Option.none

/-- Modelled from the spec: the decode direction of the Argument Codec on a
whole payload, recovering the original argument set. -/
def decodePayload (p : EncodedPayload) : List PyVal × Kwargs :=
  (p.args.map decodeVal, p.kwargs.map (fun q => (q.1, decodeVal q.2)))

/-- Validation succeeds on an argument set iff the whole set is encodable. -/
def inputsSerializable (args : List PyVal) (kwargs : Kwargs) : Bool :=
  (validate_and_encode args kwargs).isSome

/-! ### Round-trip lemmas for the codec -/

mutual

theorem encodeVal_inv : ∀ (v : PyVal) (j : JsonVal), encodeVal v = some j → decodeVal j = v
  | PyVal.noneV, j, h => by
      simp only [encodeVal, Option.some.injEq] at h
      subst h; rfl
  | PyVal.boolV b, j, h => by
      simp only [encodeVal, Option.some.injEq] at h
      subst h; rfl
  | PyVal.intV n, j, h => by
      simp only [encodeVal, Option.some.injEq] at h
      subst h; rfl
  | PyVal.strV s, j, h => by
      simp only [encodeVal, Option.some.injEq] at h
      subst h; rfl
  | PyVal.listV xs, j, h => by
      simp only [encodeVal, Option.map_eq_some'] at h
      obtain ⟨js, hjs, rfl⟩ := h
      simp only [decodeVal, encodeList_inv xs js hjs]
  | PyVal.dictV kvs, j, h => by
      simp only [encodeVal, Option.map_eq_some'] at h
      obtain ⟨js, hjs, rfl⟩ := h
      simp only [decodeVal, encodeDict_inv kvs js hjs]

theorem encodeList_inv : ∀ (xs : PyList) (js : JsonArr), encodeList xs = some js → decodeArr js = xs
  | PyList.nil, js, h => by
      simp only [encodeList, Option.some.injEq] at h
      subst h; rfl
  | PyList.cons x xs, js, h => by
      unfold encodeList at h
      cases hx : encodeVal x with
      | none => rw [hx] at h; exact absurd h (by simp)
      | some jx =>
        cases hxs : encodeList xs with
        | none => rw [hx, hxs] at h; exact absurd h (by simp)
        | some jxs =>
          rw [hx, hxs] at h
          simp only [Option.some.injEq] at h
          subst h
          simp only [decodeArr, encodeVal_inv x jx hx, encodeList_inv xs jxs hxs]

theorem encodeDict_inv : ∀ (kvs : PyDict) (js : JsonObj), encodeDict kvs = some js → decodeObj js = kvs
  | PyDict.nil, js, h => by
      simp only [encodeDict, Option.some.injEq] at h
      subst h; rfl
  | PyDict.cons k v tl, js, h => by
      unfold encodeDict at h
      cases hv : encodeVal v with
      | none => rw [hv] at h; exact absurd h (by simp)
      | some jv =>
        cases htl : encodeDict tl with
        | none => rw [hv, htl] at h; exact absurd h (by simp)
        | some jtl =>
          rw [hv, htl] at h
          simp only [Option.some.injEq] at h
          subst h
          simp only [decodeObj, encodeVal_inv v jv hv, encodeDict_inv tl jtl htl]

end

theorem encodeArgs_inv : ∀ (args : List PyVal) (js : List JsonVal),
    encodeArgs args = some js → js.map decodeVal = args
  | [], js, h => by
      simp only [encodeArgs, Option.some.injEq] at h
      subst h; rfl
  | a :: rest, js, h => by
      unfold encodeArgs at h
      cases ha : encodeVal a with
      | none => rw [ha] at h; exact absurd h (by simp)
      | some ja =>
        cases hr : encodeArgs rest with
        | none => rw [ha, hr] at h; exact absurd h (by simp)
        | some jr =>
          rw [ha, hr] at h
          simp only [Option.some.injEq] at h
          subst h
          simp only [List.map_cons, encodeVal_inv a ja ha, encodeArgs_inv rest jr hr]

theorem encodeKwargs_inv : ∀ (kwargs : Kwargs) (js : List (String × JsonVal)),
    encodeKwargs kwargs = some js → js.map (fun q => (q.1, decodeVal q.2)) = kwargs
  | [], js, h => by
      simp only [encodeKwargs, Option.some.injEq] at h
      subst h; rfl
  | (k, v) :: rest, js, h => by
      unfold encodeKwargs at h
      cases hv : encodeVal v with
      | none => rw [hv] at h; exact absurd h (by simp)
      | some jv =>
        cases hr : encodeKwargs rest with
        | none => rw [hv, hr] at h; exact absurd h (by simp)
        | some jr =>
          rw [hv, hr] at h
          simp only [Option.some.injEq] at h
          subst h
          simp only [List.map_cons, encodeVal_inv v jv hv, encodeKwargs_inv rest jr hr]

theorem encodeArgs_mem_none (args : List PyVal) (a : PyVal)
    (hmem : a ∈ args) (hnone : encodeVal a = Option.none) :
    encodeArgs args = Option.none := by
  induction args with
  | nil => cases hmem
  | cons x rest ih =>
    unfold encodeArgs
    rcases List.mem_cons.mp hmem with hx | hrest
    · subst hx; rw [hnone]
    · rw [ih hrest]
      cases encodeVal x <;> rfl

theorem encodeKwargs_mem_none (kwargs : Kwargs) (p : String × PyVal)
    (hmem : p ∈ kwargs) (hnone : encodeVal p.2 = Option.none) :
    encodeKwargs kwargs = Option.none := by
  induction kwargs with
  | nil => cases hmem
  | cons q rest ih =>
    unfold encodeKwargs
    rcases List.mem_cons.mp hmem with hq | hrest
    · subst hq
      obtain ⟨k, v⟩ := p
      simpa using hnone.symm ▸ (by cases hv : encodeVal v <;> simp_all)
    · obtain ⟨k, v⟩ := q
      rw [ih hrest]
      cases encodeVal v <;> rfl

/-! ## JSON text

The persisted columns serialized_args and serialized_kwargs hold JSON text
produced by json.dumps with the default separators; the worker reads them
back with json.loads.  Both directions are modelled below.  Literal braces
inside string literals are written with the hexadecimal escapes of the
brace characters. -/

/-- Escaping of one character inside a JSON string literal. -/
def escapeChar (c : Char) : List Char :=
  if c = '\"' then ['\\', '\"']
  else if c = '\\' then ['\\', '\\']
  else if c = '\n' then ['\\', 'n']
  else if c = '\t' then ['\\', 't']
  else if c = '\r' then ['\\', 'r']
  else [c]

/-- Escaping of a whole character sequence. -/
def escapeChars : List Char → List Char
  | [] => []
  | c :: cs => escapeChar c ++ escapeChars cs

/-- A quoted, escaped JSON string literal for the given text. -/
def quoteStr (s : String) : String :=
  "\"" ++ String.mk (escapeChars s.toList) ++ "\""

mutual

/-- Modelled from the spec: json.dumps with the default Python separators,
as applied by the task processor when persisting arguments (the
serialization code itself is absent from the sources). -/
def dumpsVal : JsonVal → String
  | JsonVal.null => "null"
  | JsonVal.bool true => "true"
  | JsonVal.bool false => "false"
  | JsonVal.int n => toString n
  | JsonVal.str s => quoteStr s
  | JsonVal.arr JsonArr.nil => "[]"
  | JsonVal.arr (JsonArr.cons x xs) => "[" ++ dumpsVal x ++ dumpsArrRest xs ++ "]"
  | JsonVal.obj JsonObj.nil => "\x7b\x7d"
  | JsonVal.obj (JsonObj.cons k v tl) =>
      "\x7b" ++ quoteStr k ++ ": " ++ dumpsVal v ++ dumpsObjRest tl ++ "\x7d"

def dumpsArrRest : JsonArr → String
  | JsonArr.nil => ""
  | JsonArr.cons x xs => ", " ++ dumpsVal x ++ dumpsArrRest xs

def dumpsObjRest : JsonObj → String
  | JsonObj.nil => ""
  | JsonObj.cons k v tl => ", " ++ quoteStr k ++ ": " ++ dumpsVal v ++ dumpsObjRest tl

end

/-- Whitespace skipping for the JSON reader. -/
def skipWs : List Char → List Char
  | [] => []
  | c :: cs => if c = ' ' ∨ c = '\n' ∨ c = '\t' ∨ c = '\r' then skipWs cs else c :: cs

/-- Body of a JSON string literal, after the opening quote: returns the
unescaped characters and the input following the closing quote. -/
def parseStringBody : List Char → Option (List Char × List Char)
  | [] => Option.none
  | c :: cs =>
    if c = '\"' then some ([], cs)
    else if c = '\\' then
      match cs with
      | [] => Option.none
      | e :: cs2 =>
        let dec : Option Char :=
          if e = 'n' then some '\n'
          else if e = 't' then some '\t'
          else if e = 'r' then some '\r'
          else if e = '\"' then some '\"'
          else if e = '\\' then some '\\'
          else if e = '/' then some '/'
          else Option.none
        match dec with
        | Option.none => Option.none
        | some d =>
          match parseStringBody cs2 with
          | some (chars, rest) => some (d :: chars, rest)
          | Option.none => Option.none
    else
      match parseStringBody cs with
      | some (chars, rest) => some (c :: chars, rest)
      | Option.none => Option.none

/-- Decimal digit accumulation for the JSON reader. -/
def parseDigits (acc : Nat) : List Char → Nat × List Char
  | [] => (acc, [])
  | c :: cs =>
    if c.isDigit then parseDigits (acc * 10 + (c.toNat - 48)) cs else (acc, c :: cs)

mutual

/-- Modelled from the spec: json.loads as applied by the worker when reading
a persisted payload back (the deserialization code itself is absent from
the sources).  Fuel bounds the recursion depth; the entry point passes the
input length, which dominates the nesting depth. -/
def parseVal : Nat → List Char → Option (JsonVal × List Char)
  | 0, _ => Option.none
  | Nat.succ fuel, cs =>
    match skipWs cs with
    | [] => Option.none
    | c :: rest =>
      if c = 'n' then
        match rest with
        | 'u' :: 'l' :: 'l' :: r => some (JsonVal.null, r)
        | _ => Option.none
      else if c = 't' then
        match rest with
        | 'r' :: 'u' :: 'e' :: r => some (JsonVal.bool true, r)
        | _ => Option.none
      else if c = 'f' then
        match rest with
        | 'a' :: 'l' :: 's' :: 'e' :: r => some (JsonVal.bool false, r)
        | _ => Option.none
      else if c = '\"' then
        match parseStringBody rest with
        | some (chars, r) => some (JsonVal.str (String.mk chars), r)
        | Option.none => Option.none
      else if c = '-' then
        match rest with
        | d :: _ =>
          if d.isDigit then
            match parseDigits 0 rest with
            | (n, r) => some (JsonVal.int (-(Int.ofNat n)), r)
          else Option.none
        | [] => Option.none
      else if c.isDigit then
        match parseDigits 0 (c :: rest) with
        | (n, r) => some (JsonVal.int (Int.ofNat n), r)
      else if c = '[' then
        match skipWs rest with
        | ']' :: r => some (JsonVal.arr JsonArr.nil, r)
        | cs2 =>
          match parseArrItems fuel cs2 with
          | some (xs, r) => some (JsonVal.arr xs, r)
          | Option.none => Option.none
      else if c = '\x7b' then
        match skipWs rest with
        | '\x7d' :: r => some (JsonVal.obj JsonObj.nil, r)
        | cs2 =>
          match parseObjItems fuel cs2 with
          | some (kvs, r) => some (JsonVal.obj kvs, r)
          | Option.none => Option.none
      else Option.none

def parseArrItems : Nat → List Char → Option (JsonArr × List Char)
  | 0, _ => Option.none
  | Nat.succ fuel, cs =>
    match parseVal fuel cs with
    | Option.none => Option.none
    | some (v, r) =>
      match skipWs r with
      | ',' :: r2 =>
        match parseArrItems fuel r2 with
        | some (xs, r3) => some (JsonArr.cons v xs, r3)
        | Option.none => Option.none
      | ']' :: r2 => some (JsonArr.cons v JsonArr.nil, r2)
      | _ => Option.none

def parseObjItems : Nat → List Char → Option (JsonObj × List Char)
  | 0, _ => Option.none
  | Nat.succ fuel, cs =>
    match skipWs cs with
    | '\"' :: rest =>
      match parseStringBody rest with
      | Option.none => Option.none
      | some (kchars, r) =>
        match skipWs r with
        | ':' :: r2 =>
          match parseVal fuel r2 with
          | Option.none => Option.none
          | some (v, r3) =>
            match skipWs r3 with
            | ',' :: r4 =>
              match parseObjItems fuel r4 with
              | some (kvs, r5) => some (JsonObj.cons (String.mk kchars) v kvs, r5)
              | Option.none => Option.none
            | '\x7d' :: r4 => some (JsonObj.cons (String.mk kchars) v JsonObj.nil, r4)
            | _ => Option.none
        | _ => Option.none
    | _ => Option.none

end

/-- Reading of a whole JSON document: parse one value and require only
trailing whitespace after it. -/
def loads (s : String) : Option JsonVal :=
  match parseVal (s.length + 1) s.toList with
  | some (v, r) => if skipWs r = [] then some v else Option.none
  | Option.none => Option.none

/-! ## Errors, registry and process state -/

/-- The error taxonomy of the task processor. -/
inductive TErr where
  | invalidArguments : TErr
  | duplicateTask : TErr
  | unknownTask : TErr
  | decodeError : TErr
deriving DecidableEq

/-- One entry of the Task Registry.  The source token identifies the
decoration site: re-registering the same source is a no-op, while a
distinct decoration colliding on the identifier is a duplicate. -/
structure RegEntry where
  identifier : String
  srcToken : Nat
  fn : PyFn

/-- The process-wide Task Registry, a mapping from task identifiers to
registered callables. -/
abbrev Registry := List RegEntry

/-- Modelled from the spec: register of the Task Registry
(task_processor.task_registry is absent from the sources).  A fresh
identifier is bound; re-registration of the same source is a no-op;
a distinct registration colliding on the identifier fails with
DuplicateTaskError. -/
def registerTask (identifier : String) (tok : Nat) (f : PyFn) (reg : Registry) :
    Except TErr Registry :=
  match reg.find? (fun e => e.identifier == identifier) with
  | Option.none => Except.ok (reg ++ [⟨identifier, tok, f⟩])
  | some e => if e.srcToken = tok then Except.ok reg else Except.error TErr.duplicateTask

/-- Modelled from the spec: get_task of the Task Registry; resolving an
unbound identifier raises UnknownTaskError, surfaced to Python callers as a
KeyError-class failure. -/
def get_task (reg : Registry) (identifier : String) : Except TErr RegEntry :=
  match reg.find? (fun e => e.identifier == identifier) with
  | some e => Except.ok e
  | Option.none => Except.error TErr.unknownTask

/-- Boolean success test for an Except result. -/
def isOkE {α : Type} (r : Except TErr α) : Bool :=
  match r with
  | Except.ok _ => true
  | Except.error _ => false

/-- TASK_RUN_METHOD configuration values of the task processor. -/
inductive TaskRunMethod where
  | SYNCHRONOUSLY : TaskRunMethod
  | SEPARATE_THREAD : TaskRunMethod
  | TASK_PROCESSOR : TaskRunMethod
deriving DecidableEq

/-- Severity of an emitted log record. -/
inductive LogLevel where
  | debug : LogLevel
  | info : LogLevel
  | warning : LogLevel
  | error : LogLevel
deriving DecidableEq

/-- One emitted log record. -/
structure LogRecord where
  level : LogLevel
  message : String
deriving DecidableEq

/-- One thread constructed by run_in_thread: its target callable, the
arguments it was given, its daemon flag, and whether start was called. -/
structure SpawnedThread where
  target : PyFn
  args : List PyVal
  kwargs : Kwargs
  daemon : Bool
  started : Bool

/-- A persisted task-queue record awaiting the external worker. -/
structure TaskRecord where
  task_identifier : String
  serialized_args : String
  serialized_kwargs : String
deriving DecidableEq

/-- A persisted recurring-task definition: identifier, serialized argument
blobs and the interval in seconds. -/
structure RecurringTask where
  task_identifier : String
  serialized_args : String
  serialized_kwargs : String
  run_every : Nat
deriving DecidableEq

/-- An inline execution of a function body, recorded as an observable side
effect. -/
structure ExecEvent where
  fname : String
  args : List PyVal
  kwargs : Kwargs

/-- The observable state of one process plus the shared storage: the
registry, the persisted task queue, the persisted recurring definitions,
the threads constructed so far, the log output and the inline executions. -/
structure ProcState where
  registry : Registry
  tasks : List TaskRecord
  recurring_tasks : List RecurringTask
  threads : List SpawnedThread
  logs : List LogRecord
  executions : List ExecEvent

/-- The state of a freshly started process over empty storage. -/
def emptyState : ProcState :=
  ⟨[], [], [], [], [], []⟩

/-! ## The task-handler decorator -/

/-- The callable object produced by register_task_handler: it keeps the
task identifier, the Python name of the function and a reference to the
undecorated function. -/
structure TaskHandler where
  taskIdentifier : String
  name : String
  unwrapped : PyFn

/-- Modelled from the spec: the register_task_handler decorator
(task_processor.decorators is absent from the sources).  On decoration it
derives the identifier from module and name, registers the callable in the
Task Registry and returns the wrapper object. -/
def register_task_handler (module fname : String) (tok : Nat) (f : PyFn) (reg : Registry) :
    Except TErr (TaskHandler × Registry) :=
  match registerTask (module ++ "." ++ fname) tok f reg with
  | Except.ok reg2 => Except.ok (⟨module ++ "." ++ fname, fname, f⟩, reg2)
  | Except.error e => Except.error e

/-- Modelled from the spec: a direct call of the decorated function.  It
validates the arguments through the codec, then executes the wrapped
function inline and returns its result; invalid arguments raise
InvalidArgumentsError and leave the state untouched. -/
def directCall (h : TaskHandler) (args : List PyVal) (kwargs : Kwargs) (st : ProcState) :
    Except TErr PyVal × ProcState :=
  if inputsSerializable args kwargs then
    (Except.ok (h.unwrapped args kwargs),
      { st with executions := st.executions ++ [⟨h.name, args, kwargs⟩] })
  else (Except.error TErr.invalidArguments, st)

/-- Modelled from the spec: run_in_thread of the decorated function.  It
validates the arguments, emits one INFO log record naming the function,
and constructs and starts one daemon thread targeting the unwrapped
function with the given arguments, returning without waiting. -/
def run_in_thread (h : TaskHandler) (args : List PyVal) (kwargs : Kwargs) (st : ProcState) :
    Except TErr Unit × ProcState :=
  if inputsSerializable args kwargs then
    (Except.ok (),
      { st with
        threads := st.threads ++ [⟨h.unwrapped, args, kwargs, true, true⟩],
        logs := st.logs ++
          [⟨LogLevel.info, "Running function " ++ h.name ++ " in unmanaged thread."⟩] })
  else (Except.error TErr.invalidArguments, st)

/-- Conversion of an encoded argument list to the nested JSON array form
used by the persisted text columns. -/
def jarrOfList : List JsonVal → JsonArr
  | [] => JsonArr.nil
  | x :: xs => JsonArr.cons x (jarrOfList xs)

/-- Conversion of an encoded keyword mapping to the nested JSON object form
used by the persisted text columns. -/
def jobjOfList : List (String × JsonVal) → JsonObj
  | [] => JsonObj.nil
  | (k, v) :: xs => JsonObj.cons k v (jobjOfList xs)

/-- Modelled from the spec: delay of the decorated function.  The arguments
are validated and encoded synchronously at the call site for every
TASK_RUN_METHOD; only then does the configured mode decide between inline
execution, an unmanaged thread, and persisting a task record for the
external worker. -/
def delay (h : TaskHandler) (runMethod : TaskRunMethod)
    (args : List PyVal) (kwargs : Kwargs) (st : ProcState) :
    Except TErr (Option TaskRecord) × ProcState :=
  match validate_and_encode args kwargs with
  | Option.none => (Except.error TErr.invalidArguments, st)
  | some payload =>
    match runMethod with
    | TaskRunMethod.SYNCHRONOUSLY =>
        (Except.ok Option.none,
          { st with executions := st.executions ++ [⟨h.name, args, kwargs⟩] })
    | TaskRunMethod.SEPARATE_THREAD =>
        let r := run_in_thread h args kwargs st
        (r.1.map (fun _ => Option.none), r.2)
    | TaskRunMethod.TASK_PROCESSOR =>
        let tr : TaskRecord :=
          ⟨h.taskIdentifier,
            dumpsVal (JsonVal.arr (jarrOfList payload.args)),
            dumpsVal (JsonVal.obj (jobjOfList payload.kwargs))⟩
        (Except.ok (some tr), { st with tasks := st.tasks ++ [tr] })

/-! ## The recurring-task registrar -/

/-- Number of persisted recurring definitions carrying the identifier. -/
def countRecurring (st : ProcState) (identifier : String) : Nat :=
  (st.recurring_tasks.filter (fun t => t.task_identifier == identifier)).length

/-- Modelled from the spec: the register_recurring_task decorator
(task_processor.decorators is absent from the sources).  When the process
is not the task-processor worker the decorator returns the function
unchanged and performs no registration at all — the specification section
on the registrar alone claims a registry entry is still made, but both its
testable-properties section and the shipped unit test require get_task to
raise KeyError in that case, so the test behaviour is followed.  In worker
role it registers the callable, validates and encodes the configured
arguments, and looks up or creates the one persisted definition for the
identifier, leaving an existing definition unchanged. -/
def register_recurring_task (runByProcessor : Bool) (run_every : Nat)
    (taskArgs : List PyVal) (taskKwargs : Kwargs)
    (module fname : String) (tok : Nat) (f : PyFn) (st : ProcState) :
    Except TErr Unit × ProcState :=
  match runByProcessor with
  | false => (Except.ok (), st)
  | true =>
    match registerTask (module ++ "." ++ fname) tok f st.registry with
    | Except.error e => (Except.error e, st)
    | Except.ok reg2 =>
      match validate_and_encode taskArgs taskKwargs with
      | Option.none => (Except.error TErr.invalidArguments, st)
      | some payload =>
        if st.recurring_tasks.any (fun t => t.task_identifier == module ++ "." ++ fname) then
          (Except.ok (), { st with registry := reg2 })
        else
          (Except.ok (),
            { st with registry := reg2, recurring_tasks := st.recurring_tasks ++
              [⟨module ++ "." ++ fname,
                dumpsVal (JsonVal.arr (jarrOfList payload.args)),
                dumpsVal (JsonVal.obj (jobjOfList payload.kwargs)),
                run_every⟩] })

/-- Auxiliary: a parsed JSON array as a list of values. -/
def jsonArrToList : JsonArr → List JsonVal
  | JsonArr.nil => []
  | JsonArr.cons x xs => x :: jsonArrToList xs

/-- Auxiliary: a parsed JSON object as an association list. -/
def jsonObjToList : JsonObj → List (String × JsonVal)
  | JsonObj.nil => []
  | JsonObj.cons k v tl => (k, v) :: jsonObjToList tl

/-- Modelled from the spec: RecurringTask.run of the persisted model.  It
resolves the identifier in the Task Registry, reads the stored argument
blobs back through the codec and invokes the callable, returning its
actual result. -/
def RecurringTask.run (t : RecurringTask) (reg : Registry) : Except TErr PyVal :=
  match get_task reg t.task_identifier with
  | Except.error e => Except.error e
  | Except.ok entry =>
    match loads t.serialized_args, loads t.serialized_kwargs with
    | some (JsonVal.arr js), some (JsonVal.obj kvs) =>
        Except.ok (entry.fn ((jsonArrToList js).map decodeVal)
          ((jsonObjToList kvs).map (fun p => (p.1, decodeVal p.2))))
    | _, _ => Except.error TErr.decodeError

/-! ## Helper lemmas -/

theorem registerTask_find (identifier : String) (tok : Nat) (f : PyFn) (reg reg2 : Registry)
    (h : registerTask identifier tok f reg = Except.ok reg2) :
    ∃ e, reg2.find? (fun x => x.identifier == identifier) = some e ∧ e.srcToken = tok := by
  unfold registerTask at h
  split at h
  next hf =>
    injection h with h2
    subst h2
    refine ⟨⟨identifier, tok, f⟩, ?_, rfl⟩
    rw [List.find?_append, hf]
    simp
  next e hf =>
    split at h
    next htok =>
      injection h with h2
      subst h2
      exact ⟨e, hf, htok⟩
    next htok =>
      cases h

theorem get_task_of_registerTask (identifier : String) (tok : Nat) (f : PyFn)
    (reg reg2 : Registry) (h : registerTask identifier tok f reg = Except.ok reg2) :
    isOkE (get_task reg2 identifier) = true := by
  obtain ⟨e, hfind, -⟩ := registerTask_find identifier tok f reg reg2 h
  unfold get_task
  rw [hfind]
  rfl

theorem encodeVal_eq_none_of_not_serializable (a : PyVal) (h : serializable a = false) :
    encodeVal a = Option.none := by
  unfold serializable at h
  cases henc : encodeVal a with
  | none => rfl
  | some j => rw [henc] at h; cases h

theorem validate_and_encode_eq_none_of_bad (args : List PyVal) (kwargs : Kwargs)
    (hbad : (∃ a ∈ args, serializable a = false) ∨ (∃ p ∈ kwargs, serializable p.2 = false)) :
    validate_and_encode args kwargs = Option.none := by
  unfold validate_and_encode
  rcases hbad with ⟨a, hmem, hser⟩ | ⟨p, hmem, hser⟩
  · rw [encodeArgs_mem_none args a hmem (encodeVal_eq_none_of_not_serializable a hser)]
  · rw [encodeKwargs_mem_none kwargs p hmem (encodeVal_eq_none_of_not_serializable p.2 hser)]
    cases encodeArgs args <;> rfl

/-! ## Concrete fixtures mirroring the unit tests -/

/-- The Python module the unit tests register their functions from. -/
def testModule : String := "test_unit_task_processor_decorators"

/-- The body of the test function my_function, which takes any arguments
and returns None. -/
def myFunction : PyFn := fun _ _ => PyVal.noneV

/-- The wrapper object register_task_handler builds for my_function. -/
def myFunctionHandler : TaskHandler :=
  ⟨testModule ++ "." ++ "my_function", "my_function", myFunction⟩

/-- Keyword lookup as Python performs it when binding keyword arguments. -/
def kwLookup (ks : Kwargs) (k : String) : Option PyVal :=
  match ks.find? (fun p => p.1 == k) with
  | some p => some p.2
  | Option.none => Option.none

/-- The body of the test function a_function, which concatenates its two
keyword arguments. -/
def aFunction : PyFn := fun _ kwargs =>
  match kwLookup kwargs ("first_arg"), kwLookup kwargs ("second_arg") with
  | some (PyVal.strV a), some (PyVal.strV b) => PyVal.strV (a ++ b)
  | _, _ => PyVal.noneV

/-- The keyword arguments the recurring-task tests register. -/
def testKwargs : Kwargs :=
  [(("first_arg" : String), PyVal.strV ("foo")),
   (("second_arg" : String), PyVal.strV ("bar"))]

/-- The JSON text json.dumps produces for testKwargs. -/
def testKwargsJson : String :=
  "\x7b\"first_arg\": \"foo\", \"second_arg\": \"bar\"\x7d"

/-- The task identifier of a_function. -/
def aFunctionIdentifier : String := "test_unit_task_processor_decorators.a_function"

/-! ## Claim theorems -/

/-- C1: for every function decorated with register_task_handler and every
argument set containing a non-serializable object, both invocation modes
(direct call and delay) raise InvalidArgumentsError synchronously at the
call site with the process state unchanged — hence before any execution
side effect — and this holds under every configured TaskRunMethod. -/
theorem invalid_arguments_raise_synchronously (h : TaskHandler) (args : List PyVal)
    (kwargs : Kwargs) (st : ProcState) (rm : TaskRunMethod)
    (hbad : (∃ a ∈ args, serializable a = false) ∨ (∃ p ∈ kwargs, serializable p.2 = false)) :
    directCall h args kwargs st = (Except.error TErr.invalidArguments, st) ∧
    delay h rm args kwargs st = (Except.error TErr.invalidArguments, st) := by
  have hv : validate_and_encode args kwargs = Option.none :=
    validate_and_encode_eq_none_of_bad args kwargs hbad
  constructor
  · unfold directCall inputsSerializable
    rw [hv]
    rfl
  · unfold delay
    rw [hv]

/-- C1 witness: the non-serializable object of the unit tests raises
InvalidArgumentsError from the direct call and from delay, leaving the
state untouched. -/
theorem invalid_arguments_raise_synchronously_witness :
    directCall myFunctionHandler [PyVal.objV ("NonSerializableObj")] [] emptyState
      = (Except.error TErr.invalidArguments, emptyState) ∧
    delay myFunctionHandler TaskRunMethod.SEPARATE_THREAD
        [PyVal.objV ("NonSerializableObj")] [] emptyState
      = (Except.error TErr.invalidArguments, emptyState) :=
  invalid_arguments_raise_synchronously myFunctionHandler
    [PyVal.objV ("NonSerializableObj")] [] emptyState TaskRunMethod.SEPARATE_THREAD
    (Or.inl ⟨PyVal.objV ("NonSerializableObj"), by simp, rfl⟩)

/-- C8 counterexample: at a non-serializable argument the direct call
raises InvalidArgumentsError while the unwrapped function returns None, so
the direct call does not return the same result as the unwrapped call for
every argument set. -/
theorem direct_call_unwrapped_mismatch :
    (directCall myFunctionHandler [PyVal.objV ("NonSerializableObj")] [] emptyState).1
        = Except.error TErr.invalidArguments ∧
    myFunctionHandler.unwrapped [PyVal.objV ("NonSerializableObj")] [] = PyVal.noneV ∧
    (directCall myFunctionHandler [PyVal.objV ("NonSerializableObj")] [] emptyState).1
        ≠ Except.ok (myFunctionHandler.unwrapped [PyVal.objV ("NonSerializableObj")] []) :=
  ⟨rfl, rfl, fun hc => Except.noConfusion hc⟩

/-- C8 amended: for every argument set the codec accepts, the direct call
of the decorated function returns exactly the result of the unwrapped
function. -/
theorem direct_call_matches_unwrapped (h : TaskHandler) (args : List PyVal)
    (kwargs : Kwargs) (st : ProcState) (hv : inputsSerializable args kwargs = true) :
    (directCall h args kwargs st).1 = Except.ok (h.unwrapped args kwargs) := by
  unfold directCall
  rw [hv]
  rfl

/-- C8 witness: at the encodable argument set of the unit test the direct
call returns the result of the unwrapped function. -/
theorem direct_call_matches_unwrapped_witness :
    inputsSerializable [PyVal.strV ("foo")] [] = true ∧
    (directCall myFunctionHandler [PyVal.strV ("foo")] [] emptyState).1
      = Except.ok PyVal.noneV :=
  ⟨rfl, direct_call_matches_unwrapped myFunctionHandler [PyVal.strV ("foo")] [] emptyState rfl⟩

/-- C2 counterexample: in a process that is not the task-processor worker,
applying register_recurring_task leaves the state completely unchanged and
resolving the identifier afterwards raises UnknownTaskError, refuting the
claim that the decorator registers the callable in the Task Registry in
every process regardless of role. -/
theorem recurring_task_not_in_registry_outside_worker :
    register_recurring_task false 600 [] testKwargs testModule ("some_function") 0
        aFunction emptyState = (Except.ok (), emptyState) ∧
    get_task emptyState.registry (testModule ++ "." ++ "some_function")
        = Except.error TErr.unknownTask :=
  ⟨rfl, rfl⟩

/-- C2 amended: the registrar registers the callable in the Task Registry
only in worker role: when a worker-role registration succeeds the
identifier resolves afterwards through get_task, while outside worker role
the decorator returns the function unchanged and leaves the whole state —
registry included — exactly as it was. -/
theorem recurring_task_registry_matches_role
    (run_every : Nat) (taskArgs : List PyVal) (taskKwargs : Kwargs)
    (module fname : String) (tok : Nat) (f : PyFn) (st : ProcState)
    (hok : (register_recurring_task true run_every taskArgs taskKwargs module fname tok f st).1
        = Except.ok ()) :
    isOkE (get_task
        (register_recurring_task true run_every taskArgs taskKwargs module fname tok f st).2.registry
        (module ++ "." ++ fname)) = true ∧
    register_recurring_task false run_every taskArgs taskKwargs module fname tok f st
        = (Except.ok (), st) := by
  refine ⟨?_, rfl⟩
  unfold register_recurring_task at hok ⊢
  cases hr : registerTask (module ++ "." ++ fname) tok f st.registry with
  | error e => simp [hr] at hok
  | ok reg2 =>
    simp only [hr] at hok ⊢
    cases hv : validate_and_encode taskArgs taskKwargs with
    | none => simp [hv] at hok
    | some payload =>
      simp only [hv] at hok ⊢
      split
      · exact get_task_of_registerTask _ _ _ _ _ hr
      · exact get_task_of_registerTask _ _ _ _ _ hr

/-- C2 witness: a successful worker-role registration after which get_task
resolves the identifier, and the unchanged state outside worker role. -/
theorem recurring_task_registry_matches_role_witness :
    (register_recurring_task true 600 [] testKwargs testModule ("b_function") 0
        aFunction emptyState).1 = Except.ok () ∧
    isOkE (get_task
        (register_recurring_task true 600 [] testKwargs testModule ("b_function") 0
            aFunction emptyState).2.registry (testModule ++ "." ++ "b_function")) = true ∧
    register_recurring_task false 600 [] testKwargs testModule ("b_function") 0
        aFunction emptyState = (Except.ok (), emptyState) :=
  ⟨rfl,
    (recurring_task_registry_matches_role 600 [] testKwargs testModule ("b_function") 0
      aFunction emptyState rfl).1,
    (recurring_task_registry_matches_role 600 [] testKwargs testModule ("b_function") 0
      aFunction emptyState rfl).2⟩

/-- C4: outside worker role the decorator creates zero recurring-task rows
and leaves the registry untouched, so that afterwards — in a process that
had not otherwise registered the identifier — get_task raises
UnknownTaskError. -/
theorem register_recurring_task_does_nothing_if_not_run_by_processor
    (run_every : Nat) (taskArgs : List PyVal) (taskKwargs : Kwargs)
    (module fname : String) (tok : Nat) (f : PyFn) (st : ProcState)
    (hreg : get_task st.registry (module ++ "." ++ fname) = Except.error TErr.unknownTask)
    (hrows : countRecurring st (module ++ "." ++ fname) = 0) :
    register_recurring_task false run_every taskArgs taskKwargs module fname tok f st
        = (Except.ok (), st) ∧
    countRecurring
        (register_recurring_task false run_every taskArgs taskKwargs module fname tok f st).2
        (module ++ "." ++ fname) = 0 ∧
    get_task
        (register_recurring_task false run_every taskArgs taskKwargs module fname tok f st).2.registry
        (module ++ "." ++ fname) = Except.error TErr.unknownTask :=
  ⟨rfl, hrows, hreg⟩

/-- C4 witness: the fresh-process scenario of the unit test, where the
non-worker decoration persists nothing and resolution fails. -/
theorem register_recurring_task_does_nothing_witness :
    get_task emptyState.registry (testModule ++ "." ++ "some_function")
        = Except.error TErr.unknownTask ∧
    countRecurring
        (register_recurring_task false 600 [] testKwargs testModule ("some_function") 1
            aFunction emptyState).2
        (testModule ++ "." ++ "some_function") = 0 ∧
    get_task
        (register_recurring_task false 600 [] testKwargs testModule ("some_function") 1
            aFunction emptyState).2.registry
        (testModule ++ "." ++ "some_function") = Except.error TErr.unknownTask :=
  ⟨rfl,
    (register_recurring_task_does_nothing_if_not_run_by_processor 600 [] testKwargs
      testModule ("some_function") 1 aFunction emptyState rfl rfl).2.1,
    (register_recurring_task_does_nothing_if_not_run_by_processor 600 [] testKwargs
      testModule ("some_function") 1 aFunction emptyState rfl rfl).2.2⟩

/-- C3: in worker role, registering a_function with a ten-minute interval
(600 seconds) and the kwargs of the test creates exactly one RecurringTask
row whose identifier joins the module path and the function name, whose
serialized_kwargs is exactly the json.dumps text of the given kwargs, and
whose run_every is the given interval; running that row resolves the
callable, rebinds the stored kwargs and returns the string foobar. -/
theorem register_recurring_task_worker_creates_definition :
    (register_recurring_task true 600 [] testKwargs testModule ("a_function") 0
        aFunction emptyState).1 = Except.ok () ∧
    (register_recurring_task true 600 [] testKwargs testModule ("a_function") 0
        aFunction emptyState).2.recurring_tasks
      = [⟨aFunctionIdentifier, "[]", testKwargsJson, 600⟩] ∧
    (encodeKwargs testKwargs).map (fun ek => dumpsVal (JsonVal.obj (jobjOfList ek)))
      = some testKwargsJson ∧
    RecurringTask.run ⟨aFunctionIdentifier, "[]", testKwargsJson, 600⟩
        (register_recurring_task true 600 [] testKwargs testModule ("a_function") 0
            aFunction emptyState).2.registry
      = Except.ok (PyVal.strV ("foobar")) :=
  ⟨rfl, rfl, rfl, rfl⟩

/-- C5: one call of run_in_thread with encodable arguments succeeds and
changes the state by exactly one constructed-and-started thread whose
target is the unwrapped function with exactly the given args and kwargs,
and exactly one INFO log record whose message names the function in the
exact wording of the contract; nothing is executed inline, so the call
returns without waiting for the thread. -/
theorem run_in_thread_spawns_one_thread (h : TaskHandler) (args : List PyVal)
    (kwargs : Kwargs) (st : ProcState) (hv : inputsSerializable args kwargs = true) :
    run_in_thread h args kwargs st =
      (Except.ok (), { st with
        threads := st.threads ++ [⟨h.unwrapped, args, kwargs, true, true⟩],
        logs := st.logs ++
          [⟨LogLevel.info, "Running function " ++ h.name ++ " in unmanaged thread."⟩] }) := by
  unfold run_in_thread
  rw [hv]
  rfl

/-- C5 witness: the exact scenario of the unit test, producing the one
thread and the one INFO record with the exact message naming my_function. -/
theorem run_in_thread_spawns_one_thread_witness :
    inputsSerializable [PyVal.strV ("foo")] [(("bar" : String), PyVal.strV ("baz"))] = true ∧
    run_in_thread myFunctionHandler [PyVal.strV ("foo")]
        [(("bar" : String), PyVal.strV ("baz"))] emptyState =
      (Except.ok (), { emptyState with
        threads := [⟨myFunction, [PyVal.strV ("foo")],
          [(("bar" : String), PyVal.strV ("baz"))], true, true⟩],
        logs := [⟨LogLevel.info, "Running function my_function in unmanaged thread."⟩] }) :=
  ⟨rfl, run_in_thread_spawns_one_thread myFunctionHandler [PyVal.strV ("foo")]
    [(("bar" : String), PyVal.strV ("baz"))] emptyState rfl⟩

/-- C10: the thread constructed by run_in_thread is created with the daemon
flag set (and already started), matching the daemon-true construction the
unit test asserts; the spec text itself only calls the thread unmanaged. -/
theorem run_in_thread_thread_is_daemon (h : TaskHandler) (args : List PyVal)
    (kwargs : Kwargs) (st : ProcState) (hv : inputsSerializable args kwargs = true) :
    ((run_in_thread h args kwargs st).2.threads).getLast?
      = some ⟨h.unwrapped, args, kwargs, true, true⟩ := by
  unfold run_in_thread
  rw [hv]
  exact List.getLast?_concat _

/-- C10 witness: the thread spawned in the unit-test scenario carries
daemon set to true. -/
theorem run_in_thread_thread_is_daemon_witness :
    inputsSerializable [PyVal.strV ("foo")] [(("bar" : String), PyVal.strV ("baz"))] = true ∧
    ((run_in_thread myFunctionHandler [PyVal.strV ("foo")]
        [(("bar" : String), PyVal.strV ("baz"))] emptyState).2.threads).getLast?
      = some ⟨myFunction, [PyVal.strV ("foo")],
          [(("bar" : String), PyVal.strV ("baz"))], true, true⟩ :=
  ⟨rfl, run_in_thread_thread_is_daemon myFunctionHandler [PyVal.strV ("foo")]
    [(("bar" : String), PyVal.strV ("baz"))] emptyState rfl⟩

/-- C6: for every argument set the Argument Codec accepts, decoding the
encoding is the identity on the arguments. -/
theorem decode_encode_roundtrip (args : List PyVal) (kwargs : Kwargs) (p : EncodedPayload)
    (henc : validate_and_encode args kwargs = some p) :
    decodePayload p = (args, kwargs) := by
  unfold validate_and_encode at henc
  cases ha : encodeArgs args with
  | none => simp [ha] at henc
  | some ea =>
    cases hk : encodeKwargs kwargs with
    | none => simp [ha, hk] at henc
    | some ek =>
      simp only [ha, hk, Option.some.injEq] at henc
      subst henc
      show (ea.map decodeVal, ek.map (fun q => (q.1, decodeVal q.2))) = (args, kwargs)
      rw [encodeArgs_inv args ea ha, encodeKwargs_inv kwargs ek hk]

/-- C6 witness: a concrete nested argument set whose encoding decodes back
to itself. -/
theorem decode_encode_roundtrip_witness :
    validate_and_encode
        [PyVal.intV 7, PyVal.listV (PyList.cons (PyVal.strV ("x")) PyList.nil)]
        [(("flag" : String), PyVal.boolV true)]
      = some ⟨[JsonVal.int 7, JsonVal.arr (JsonArr.cons (JsonVal.str ("x")) JsonArr.nil)],
              [(("flag" : String), JsonVal.bool true)]⟩ ∧
    decodePayload
        ⟨[JsonVal.int 7, JsonVal.arr (JsonArr.cons (JsonVal.str ("x")) JsonArr.nil)],
         [(("flag" : String), JsonVal.bool true)]⟩
      = ([PyVal.intV 7, PyVal.listV (PyList.cons (PyVal.strV ("x")) PyList.nil)],
         [(("flag" : String), PyVal.boolV true)]) :=
  ⟨rfl,
    decode_encode_roundtrip
      [PyVal.intV 7, PyVal.listV (PyList.cons (PyVal.strV ("x")) PyList.nil)]
      [(("flag" : String), PyVal.boolV true)]
      ⟨[JsonVal.int 7, JsonVal.arr (JsonArr.cons (JsonVal.str ("x")) JsonArr.nil)],
       [(("flag" : String), JsonVal.bool true)]⟩ rfl⟩

/-- C7: worker-role registration is idempotent on the persisted schedule:
from any state holding at most one definition for the identifier, every
successful application of the decorator leaves exactly one definition for
it, so repeated imports and process restarts never accumulate duplicates
and the at-most-one-definition invariant is preserved. -/
theorem register_recurring_task_idempotent
    (run_every : Nat) (taskArgs : List PyVal) (taskKwargs : Kwargs)
    (module fname : String) (tok : Nat) (f : PyFn) (st : ProcState)
    (hcount : countRecurring st (module ++ "." ++ fname) ≤ 1)
    (hok : (register_recurring_task true run_every taskArgs taskKwargs module fname tok f st).1
        = Except.ok ()) :
    countRecurring
        (register_recurring_task true run_every taskArgs taskKwargs module fname tok f st).2
        (module ++ "." ++ fname) = 1 := by
  unfold register_recurring_task at hok ⊢
  cases hr : registerTask (module ++ "." ++ fname) tok f st.registry with
  | error e => simp [hr] at hok
  | ok reg2 =>
    simp only [hr] at hok ⊢
    cases hv : validate_and_encode taskArgs taskKwargs with
    | none => simp [hv] at hok
    | some payload =>
      simp only [hv] at hok ⊢
      by_cases hany :
          st.recurring_tasks.any (fun t => t.task_identifier == module ++ "." ++ fname) = true
      · rw [if_pos hany]
        unfold countRecurring at hcount ⊢
        obtain ⟨x, hxmem, hxp⟩ := List.any_eq_true.mp hany
        have hpos : 0 <
            (st.recurring_tasks.filter
              (fun t => t.task_identifier == module ++ "." ++ fname)).length :=
          List.length_pos.mpr (List.ne_nil_of_mem (List.mem_filter.mpr ⟨hxmem, hxp⟩))
        simp only []
        omega
      · rw [if_neg hany]
        unfold countRecurring
        have hnil : st.recurring_tasks.filter
            (fun t => t.task_identifier == module ++ "." ++ fname) = [] :=
          List.filter_eq_nil_iff.mpr
            (fun a ha hpa => hany (List.any_eq_true.mpr ⟨a, ha, hpa⟩))
        simp only [List.filter_append, hnil]
        simp

/-- C7 witness: applying the decorator over a state already holding the one
definition for the identifier keeps exactly one definition. -/
theorem register_recurring_task_idempotent_witness :
    countRecurring ⟨[], [], [⟨testModule ++ "." ++ "idem_function", "[]", testKwargsJson, 600⟩],
        [], [], []⟩ (testModule ++ "." ++ "idem_function") ≤ 1 ∧
    (register_recurring_task true 600 [] testKwargs testModule ("idem_function") 0 aFunction
        ⟨[], [], [⟨testModule ++ "." ++ "idem_function", "[]", testKwargsJson, 600⟩],
          [], [], []⟩).1 = Except.ok () ∧
    countRecurring
        (register_recurring_task true 600 [] testKwargs testModule ("idem_function") 0 aFunction
          ⟨[], [], [⟨testModule ++ "." ++ "idem_function", "[]", testKwargsJson, 600⟩],
            [], [], []⟩).2
        (testModule ++ "." ++ "idem_function") = 1 :=
  ⟨by decide, rfl,
    register_recurring_task_idempotent 600 [] testKwargs testModule ("idem_function") 0 aFunction
      ⟨[], [], [⟨testModule ++ "." ++ "idem_function", "[]", testKwargsJson, 600⟩],
        [], [], []⟩ (by decide) rfl⟩

/-- C9: when a first decoration has bound the identifier, a second distinct
decoration with the same module and function name fails with
DuplicateTaskError at decoration time. -/
theorem duplicate_decoration_raises
    (module fname : String) (tok1 tok2 : Nat) (f g : PyFn) (reg reg2 : Registry)
    (h1 : TaskHandler)
    (hfirst : register_task_handler module fname tok1 f reg = Except.ok (h1, reg2))
    (hne : tok1 ≠ tok2) :
    register_task_handler module fname tok2 g reg2 = Except.error TErr.duplicateTask := by
  unfold register_task_handler at hfirst ⊢
  cases hr : registerTask (module ++ "." ++ fname) tok1 f reg with
  | error e => simp [hr] at hfirst
  | ok r2 =>
    simp only [hr, Except.ok.injEq, Prod.mk.injEq] at hfirst
    obtain ⟨-, hreq⟩ := hfirst
    subst hreq
    obtain ⟨e, hfind, htok⟩ := registerTask_find (module ++ "." ++ fname) tok1 f reg r2 hr
    unfold registerTask
    rw [hfind]
    simp only []
    rw [htok, if_neg hne]

/-- C9 witness: a concrete first decoration succeeds and a second distinct
decoration under the same identifier raises DuplicateTaskError. -/
theorem duplicate_decoration_raises_witness :
    register_task_handler testModule ("my_function") 0 myFunction []
      = Except.ok (myFunctionHandler,
          [⟨testModule ++ "." ++ "my_function", 0, myFunction⟩]) ∧
    register_task_handler testModule ("my_function") 1 aFunction
        [⟨testModule ++ "." ++ "my_function", 0, myFunction⟩]
      = Except.error TErr.duplicateTask :=
  ⟨rfl,
    duplicate_decoration_raises testModule ("my_function") 0 1 myFunction aFunction []
      [⟨testModule ++ "." ++ "my_function", 0, myFunction⟩] myFunctionHandler rfl
      (by decide)⟩

end TaskProcessor
